import Mathlib

/-!
Verification of `pkg/cloudprovider/providers/openstack/metadata.go`: the
OpenStack instance-metadata retrieval pipeline — the JSON decoders
(`parseMetadata`, `parseNetworkdata`, `parseFullMetadata`), the config-drive
source (`getMetadataFromConfigDrive`), the metadata-service source
(`getMetadataFromMetadataService` and its helper `get`), and the caching
orchestrator (`getMetadata`) — embedded shallowly.

External collaborators (filesystem, mount service, HTTP client, the Go
runtime behaviour of `io.Reader` values) are modelled explicitly as
environment records; JSON documents are modelled as already-lexed trees,
since the byte-level scanner of Go's `encoding/json` is an external library.
-/

namespace Openstack

/-- A JSON document as a tree. Object fields keep document order, which Go's
decoder observes (later duplicate keys overwrite earlier ones). -/
inductive Json where
  | null
  | bool (b : Bool)
  | num (n : Int)
  | str (s : String)
  | arr (elems : List Json)
  | obj (fields : List (String × Json))

/-- `const metadataUrl = "http://169.254.169.254/"` -/
def metadataUrl : String := "http://169.254.169.254/"

/-- `const metadataPath = "openstack/2012-08-10/meta_data.json"` -/
def metadataPath : String := "openstack/2012-08-10/meta_data.json"

/-- `const networkdataPath = "openstack/2015-10-15/network_data.json"` -/
def networkdataPath : String := "openstack/2015-10-15/network_data.json"

/-- `const configDriveLabel = "config-2"` -/
def configDriveLabel : String := "config-2"

/-- Go `type Metadata struct`: fields `Uuid`, `Name`, `AvailabilityZone`
with json tags `uuid`, `name`, `availability_zone`. -/
structure Metadata where
  Uuid : String
  Name : String
  AvailabilityZone : String
deriving Repr, DecidableEq

/-- Go `type Link struct`: fields `MAC` (tag `ethernet_mac_address`),
`Type` (tag `type`), `Id` (tag `id`). The Go field `Type` is written
`type` here because `Type` is not a legal Lean field name. -/
structure Link where
  MAC : String
  type : String
  Id : String
deriving Repr, DecidableEq

/-- Go `type Network struct`: fields `NetworkId` (tag `network_id`),
`IP` (tag `ip_address`), `LinkId` (tag `link`), `Link` (tag `-`, never
decoded — written `link` here to avoid clashing with the type `Link`),
`Type` (tag `type`, written `type`). -/
structure Network where
  NetworkId : String
  IP : String
  LinkId : String
  link : Option Link
  type : String
deriving Repr, DecidableEq

/-- Go `type Service struct`: fields `Type` (tag `type`, written `type`)
and `Address` (tag `address`). -/
structure Service where
  type : String
  Address : String
deriving Repr, DecidableEq

/-- Go `type Networkdata struct`: `Links`, `Networks`, `Services`. -/
structure Networkdata where
  Links : List Link
  Networks : List Network
  Services : List Service
deriving Repr, DecidableEq

/-- Errors surfaced by the code or its collaborators. `badMetadata` is
`ErrBadMetadata` ("Invalid OpenStack metadata, got empty uuid");
`typeError` stands for a `json.UnmarshalTypeError`; `readOnClosedBody` is
the error Go's `http` package returns when reading a response body after
`Close`; `invalidFile` is `os.ErrInvalid`, returned by `Read` on a nil
`*os.File`; `nilReaderPanic` marks the (unreachable in the modelled
executions) runtime fault of calling `Read` through a nil `io.Reader`
interface. The remaining constructors are sample collaborator errors. -/
inductive GoErr where
  | typeError
  | badMetadata
  | readOnClosedBody
  | invalidFile
  | nilReaderPanic
  | blkidFailed
  | tempDirFailed
  | mountFailed
  | openFailed
  | httpTransport
  | httpStatus (code : Nat)
deriving Repr, DecidableEq

/-- The values bound to `key` across an object's field list, in document
order. Go's decoder visits the fields in this order. -/
def keyValues (key : String) (fields : List (String × Json)) : List Json :=
  (fields.filter (fun kv => kv.1 == key)).map (fun kv => kv.2)

/-- Go's `encoding/json` semantics for decoding into a `string` struct
field, folded over the successive values bound to the field's key: a JSON
string overwrites the field, a JSON `null` leaves it unchanged, and any
other value leaves it unchanged (the type error is recorded separately by
`goStringError`). The field starts at Go's zero value `""`. -/
def goStringUpdates (vs : List Json) : String :=
  vs.foldl
    (fun acc v =>
      match v with
      | .str s => s
      | _ => acc)
    ""

/-- Whether any value bound to a `string` struct field is neither a JSON
string nor `null`: Go records an `UnmarshalTypeError` for each such value
and reports the (first) saved error from `Decode`. -/
def goStringError (vs : List Json) : Bool :=
  vs.any
    (fun v =>
      match v with
      | .str _ => false
      | .null => false
      | _ => true)

/-- The final value of a `string` struct field with json tag `key` after
decoding the object `fields`. -/
def decodeStringField (key : String) (fields : List (String × Json)) : String :=
  goStringUpdates (keyValues key fields)

/-- Whether decoding the `string` struct field with json tag `key` from the
object `fields` records a type error. -/
def stringFieldBad (key : String) (fields : List (String × Json)) : Bool :=
  goStringError (keyValues key fields)

/-- `json.Decode` into `Metadata`: a JSON object populates the three tagged
string fields (unknown keys are skipped); JSON `null` leaves the struct at
its zero value without error; any other document shape is an
`UnmarshalTypeError`. Go also matches keys case-insensitively as a
fallback; the claims only exercise exact tag matches, which this models. -/
def decodeMetadataJson : Json → Except GoErr Metadata
  | .null => .ok ⟨"", "", ""⟩
  | .obj fields =>
    if stringFieldBad "uuid" fields || stringFieldBad "name" fields
        || stringFieldBad "availability_zone" fields then
      .error .typeError
    else
      .ok ⟨decodeStringField "uuid" fields, decodeStringField "name" fields,
           decodeStringField "availability_zone" fields⟩
  | _ => .error .typeError

/-- `json.Decode` of one `Link` array element. -/
def decodeLink : Json → Except GoErr Link
  | .null => .ok ⟨"", "", ""⟩
  | .obj fields =>
    if stringFieldBad "ethernet_mac_address" fields || stringFieldBad "type" fields
        || stringFieldBad "id" fields then
      .error .typeError
    else
      .ok ⟨decodeStringField "ethernet_mac_address" fields,
           decodeStringField "type" fields, decodeStringField "id" fields⟩
  | _ => .error .typeError

/-- `json.Decode` of one `Network` array element. The Go field `Link` has
json tag `-`, so it is never decoded and keeps its zero value `nil`. -/
def decodeNetwork : Json → Except GoErr Network
  | .null => .ok ⟨"", "", "", none, ""⟩
  | .obj fields =>
    if stringFieldBad "network_id" fields || stringFieldBad "ip_address" fields
        || stringFieldBad "link" fields || stringFieldBad "type" fields then
      .error .typeError
    else
      .ok ⟨decodeStringField "network_id" fields,
           decodeStringField "ip_address" fields,
           decodeStringField "link" fields, none,
           decodeStringField "type" fields⟩
  | _ => .error .typeError

/-- `json.Decode` of one `Service` array element. -/
def decodeService : Json → Except GoErr Service
  | .null => .ok ⟨"", ""⟩
  | .obj fields =>
    if stringFieldBad "type" fields || stringFieldBad "address" fields then
      .error .typeError
    else
      .ok ⟨decodeStringField "type" fields, decodeStringField "address" fields⟩
  | _ => .error .typeError

/-- Decoding a JSON value into a Go slice: an array decodes element-wise
(the first failing element's error is reported), `null` leaves the slice
`nil` (modelled as `[]`), anything else is an `UnmarshalTypeError`. -/
def decodeArray {α : Type} (dec : Json → Except GoErr α) : Json → Except GoErr (List α)
  | .null => .ok []
  | .arr elems => elems.mapM dec
  | _ => .error .typeError

/-- Decoding a slice-valued struct field with json tag `key`: absent key
leaves the slice `nil`; each occurrence of the key re-decodes the field
(last occurrence wins), with the first recorded error reported. -/
def decodeArrayField {α : Type} (dec : Json → Except GoErr α) (key : String)
    (fields : List (String × Json)) : Except GoErr (List α) :=
  (keyValues key fields).foldl
    (fun acc v =>
      match acc, decodeArray dec v with
      | .error e, _ => .error e
      | _, .error e => .error e
      | _, .ok l => .ok l)
    (.ok [])

/-- `json.Decode` into `Networkdata`. -/
def decodeNetworkdataJson : Json → Except GoErr Networkdata
  | .null => .ok ⟨[], [], []⟩
  | .obj fields =>
    match decodeArrayField decodeLink "links" fields with
    | .error e => .error e
    | .ok links =>
      match decodeArrayField decodeNetwork "networks" fields with
      | .error e => .error e
      | .ok networks =>
        match decodeArrayField decodeService "services" fields with
        | .error e => .error e
        | .ok services => .ok ⟨links, networks, services⟩
  | _ => .error .typeError

/-- An `io.Reader` as the decoders can observe it:
`goodFile j` is an open file or readable stream whose content lexes to the
tree `j`; `nilFile` is a typed-nil `*os.File` (its `Read` returns
`os.ErrInvalid`); `closedBody j` is an HTTP response body whose content was
`j` but on which `Close` has already run (its `Read` returns the
read-on-closed-body error, so the content is unreachable); `nilInterface`
is a nil `io.Reader` interface value (calling `Read` on it is a runtime
panic — unreachable in the modelled executions). -/
inductive Reader where
  | goodFile (j : Json)
  | nilFile
  | closedBody (j : Json)
  | nilInterface

/-- What `json.NewDecoder(r).Decode` observes of the stream `r` before the
struct mapping: the lexed tree, or the reader's error. -/
def readJson : Reader → Except GoErr Json
  | .goodFile j => .ok j
  | .nilFile => .error .invalidFile
  | .closedBody _ => .error .readOnClosedBody
  | .nilInterface => .error .nilReaderPanic

/-- `func parseMetadata(r io.Reader) (*Metadata, error)`: decode, then
reject an empty `Uuid` with `ErrBadMetadata`. -/
def parseMetadata (r : Reader) : Except GoErr Metadata :=
  match readJson r with
  | .error e => .error e
  | .ok j =>
    match decodeMetadataJson j with
    | .error e => .error e
    | .ok metadata =>
      if metadata.Uuid = "" then .error .badMetadata
      else .ok metadata

/-- The body of the inner loop of `parseNetworkdata`, acting on the outer
iteration variable `network` (a copy of the slice element): scan `links`
in order and set `network.Link` to the first link whose `Id` equals
`network.LinkId`, then `break`; with no match, `network.Link` is left as
decoded. -/
def resolveIterationCopy (links : List Link) (network : Network) : Network :=
  match links.find? (fun l => l.Id == network.LinkId) with
  | some l => { network with link := some l }
  | none => network

/-- The outer loop `for _, network := range networkdata.Networks` of
`parseNetworkdata`. In Go, `network` is bound to a copy of each slice
element; the body assigns only to that copy, which is dropped when the
iteration ends, and the backing slice is never written. The loop therefore
computes `resolveIterationCopy` for each element, discards every result,
and leaves the slice unchanged. -/
def rangeJoin (links : List Link) (networks : List Network) : List Network :=
  networks.foldl
    (fun slice network =>
      let _copy := resolveIterationCopy links network
      slice)
    networks

/-- The join the spec's Cross-Referencer describes (spec 4.2): every
interface gets the first link whose id matches its link id attached as its
resolved link, kept absent when no link matches. Stated for comparison with
`rangeJoin`, the loop the code actually performs. -/
def joinByLinkId (links : List Link) (networks : List Network) : List Network :=
  networks.map (resolveIterationCopy links)

/-- `func parseNetworkdata(r io.Reader) (*Networkdata, error)`: decode,
run the cross-referencing loop over `Networks`, return the struct. -/
def parseNetworkdata (r : Reader) : Except GoErr Networkdata :=
  match readJson r with
  | .error e => .error e
  | .ok j =>
    match decodeNetworkdataJson j with
    | .error e => .error e
    | .ok networkdata =>
      .ok { networkdata with
              Networks := rangeJoin networkdata.Links networkdata.Networks }

/-- `func parseFullMetadata(mdReader, ndReader io.Reader)`: a metadata
parse failure propagates; a networkdata parse failure is only logged, the
nil `*Networkdata` becoming an absent topology. -/
def parseFullMetadata (mdReader ndReader : Reader) :
    Except GoErr (Metadata × Option Networkdata) :=
  match parseMetadata mdReader with
  | .error e => .error e
  | .ok md =>
    match parseNetworkdata ndReader with
    | .error _ => .ok (md, none)
    | .ok nd => .ok (md, some nd)

/-- Externally observable actions of the config-drive source, recorded in
program order; the deferred cleanup actions appear where Go runs them, just
before the function returns. -/
inductive Event where
  | statDevice (path : String)
  | runBlkid
  | makeTempDir
  | mountAttempt (dev dir fstype : String)
  | unmount (dir : String)
  | removeDir (dir : String)
  | openAttempt (path : String)
  | closeFile (path : String)
deriving Repr, DecidableEq

/-- The environment `getMetadataFromConfigDrive` runs against: outcomes of
its filesystem, exec and mount collaborators. `devLabelPathExists` is the
`os.Stat` probe of the by-label device alias (a `Stat` error other than
not-exist behaves like an existing path, as the code only tests
`os.IsNotExist`); `blkidOutput` is the combined output of the `blkid`
invocation; `tempDir` is `ioutil.TempDir`; `isoMountErr`/`vfatMountErr`
are the two mount attempts (`none` = success); `metadataFile` and
`networkdataFile` are the `os.Open` results for the two fixed paths, a
successful open carrying the file's content as a lexed tree. -/
structure ConfigDriveEnv where
  devLabelPathExists : Bool
  blkidOutput : Except GoErr String
  tempDir : Except GoErr String
  isoMountErr : Option GoErr
  vfatMountErr : Option GoErr
  metadataFile : Except GoErr Json
  networkdataFile : Except GoErr Json

/-- `"/dev/disk/by-label/" + configDriveLabel` -/
def devLabelPath : String := "/dev/disk/by-label/" ++ configDriveLabel

/-- `filepath.Join`, for the clean relative paths the code joins. -/
def filepathJoin (a b : String) : String := a ++ "/" ++ b

/-- The part of `getMetadataFromConfigDrive` after a successful mount of
`mntdir`. Pending defers at this point are `os.Remove(mntdir)` and
`mounter.Unmount(mntdir)`; `defer f.Close()` (and `defer f2.Close()` when
the second open succeeds) join them, and all run in last-in-first-out
order on every return path. When the networkdata open fails, the code sets
`f2 = nil` and passes the typed-nil `*os.File` on. -/
def afterMount (env : ConfigDriveEnv) (mntdir : String) (evs : List Event) :
    Except GoErr (Metadata × Option Networkdata) × List Event :=
  match env.metadataFile with
  | .error e =>
    (.error e,
     evs ++ [.openAttempt (filepathJoin mntdir metadataPath),
             .unmount mntdir, .removeDir mntdir])
  | .ok mdJson =>
    match env.networkdataFile with
    | .error _ =>
      (parseFullMetadata (.goodFile mdJson) .nilFile,
       evs ++ [.openAttempt (filepathJoin mntdir metadataPath),
               .openAttempt (filepathJoin mntdir networkdataPath),
               .closeFile (filepathJoin mntdir metadataPath),
               .unmount mntdir, .removeDir mntdir])
    | .ok ndJson =>
      (parseFullMetadata (.goodFile mdJson) (.goodFile ndJson),
       evs ++ [.openAttempt (filepathJoin mntdir metadataPath),
               .openAttempt (filepathJoin mntdir networkdataPath),
               .closeFile (filepathJoin mntdir networkdataPath),
               .closeFile (filepathJoin mntdir metadataPath),
               .unmount mntdir, .removeDir mntdir])

/-- The part of `getMetadataFromConfigDrive` from `ioutil.TempDir` on,
with `dev` the device path determined by the locate step: create the
temporary directory (registering `defer os.Remove(mntdir)`), mount it
read-only as iso9660, retrying once as vfat, returning the second
attempt's error when both fail (only the remove defer runs there); on
mount success register `defer mounter.Unmount(mntdir)` and continue. -/
def mountAndRead (env : ConfigDriveEnv) (dev : String) (evs : List Event) :
    Except GoErr (Metadata × Option Networkdata) × List Event :=
  match env.tempDir with
  | .error e => (.error e, evs ++ [.makeTempDir])
  | .ok mntdir =>
    match env.isoMountErr with
    | none =>
      afterMount env mntdir
        (evs ++ [.makeTempDir, .mountAttempt dev mntdir "iso9660"])
    | some _ =>
      match env.vfatMountErr with
      | none =>
        afterMount env mntdir
          (evs ++ [.makeTempDir, .mountAttempt dev mntdir "iso9660",
                   .mountAttempt dev mntdir "vfat"])
      | some e2 =>
        (.error e2,
         evs ++ [.makeTempDir, .mountAttempt dev mntdir "iso9660",
                 .mountAttempt dev mntdir "vfat", .removeDir mntdir])

/-- `func getMetadataFromConfigDrive() (*Metadata, *Networkdata, error)`,
returning the result together with the trace of external actions. The
locate step prefers the by-label alias; when `os.Stat` reports it absent,
`blkid -l -t LABEL=config-2 -o device` is run and its trimmed combined
output (`strings.TrimSpace`) is the device path, a `blkid` failure ending
the attempt. -/
def getMetadataFromConfigDrive (env : ConfigDriveEnv) :
    Except GoErr (Metadata × Option Networkdata) × List Event :=
  if env.devLabelPathExists then
    mountAndRead env devLabelPath [.statDevice devLabelPath]
  else
    match env.blkidOutput with
    | .error e => (.error e, [.statDevice devLabelPath, .runBlkid])
    | .ok out => mountAndRead env out.trim [.statDevice devLabelPath, .runBlkid]

/-- An HTTP response as `func get(url string)` observes it. -/
structure HttpResponse where
  statusCode : Nat
  body : Json

/-- The environment of `getMetadataFromMetadataService`: the two
`http.Get` outcomes, for the metadata path and the networkdata path. -/
structure MetadataServiceEnv where
  metadataResp : Except GoErr HttpResponse
  networkdataResp : Except GoErr HttpResponse

/-- `func get(url string) (io.Reader, error)`: a transport error
propagates; then `defer resp.Body.Close()` is registered; a status other
than 200 is an error. On the success path `return resp.Body, nil` runs
the deferred `Close` before control reaches the caller, so the reader
handed back is an already-closed body. -/
def get (resp : Except GoErr HttpResponse) : Except GoErr Reader :=
  match resp with
  | .error e => .error e
  | .ok r =>
    if r.statusCode ≠ 200 then .error (.httpStatus r.statusCode)
    else .ok (.closedBody r.body)

/-- `func getMetadataFromMetadataService() (*Metadata, *Networkdata, error)`:
a failure of the first `get` propagates; a failure of the second is only
logged, leaving `ndBody` the nil `io.Reader` it was declared as; both
readers then go to `parseFullMetadata`. -/
def getMetadataFromMetadataService (env : MetadataServiceEnv) :
    Except GoErr (Metadata × Option Networkdata) :=
  match get env.metadataResp with
  | .error e => .error e
  | .ok mdBody =>
    match get env.networkdataResp with
    | .error _ => parseFullMetadata mdBody .nilInterface
    | .ok ndBody => parseFullMetadata mdBody ndBody

/-- The process-wide cache: `var metadataCache *Metadata` and
`var networkdataCache *Networkdata`. -/
structure MetaState where
  metadataCache : Option Metadata
  networkdataCache : Option Networkdata
deriving Repr, DecidableEq

/-- One call's observable outcome: the returned triple, and whether each
source was invoked during the call. -/
structure CallOutcome where
  result : Except GoErr (Metadata × Option Networkdata)
  cdInvoked : Bool
  msInvoked : Bool

/-- `func getMetadata() (*Metadata, *Networkdata, error)`, with the two
sources abstracted as the results they would produce if invoked: a
populated cache is returned untouched with neither source invoked;
otherwise the config-drive result is taken, the metadata-service result
on its failure, the last error returned with the cache left unchanged
when both fail, and a success written to the cache before returning it. -/
def getMetadata (cd ms : Except GoErr (Metadata × Option Networkdata))
    (st : MetaState) : CallOutcome × MetaState :=
  match st.metadataCache with
  | some md => (⟨.ok (md, st.networkdataCache), false, false⟩, st)
  | none =>
    match cd with
    | .ok (md, nd) => (⟨.ok (md, nd), true, false⟩, ⟨some md, nd⟩)
    | .error _ =>
      match ms with
      | .ok (md, nd) => (⟨.ok (md, nd), true, true⟩, ⟨some md, nd⟩)
      | .error e => (⟨.error e, true, true⟩, st)

/-- A sequence of `getMetadata` calls, each against its own pair of
would-be source results, threading the process-wide cache. -/
def runCalls
    (envs : List (Except GoErr (Metadata × Option Networkdata) ×
                  Except GoErr (Metadata × Option Networkdata)))
    (st : MetaState) : List CallOutcome × MetaState :=
  match envs with
  | [] => ([], st)
  | e :: rest =>
    let (r, st1) := getMetadata e.1 e.2 st
    let (rs, st2) := runCalls rest st1
    (r :: rs, st2)

/-- The full system, one `getMetadata` call whose sources are the modelled
config-drive and metadata-service attempts. -/
def getMetadataFull (cdEnv : ConfigDriveEnv) (msEnv : MetadataServiceEnv)
    (st : MetaState) : CallOutcome × MetaState :=
  getMetadata (getMetadataFromConfigDrive cdEnv).1
    (getMetadataFromMetadataService msEnv) st

/-- The cache invariant: a populated metadata cache holds a record with a
non-empty uuid. It holds at process start, where the cache is nil. -/
def cacheUuidInv (st : MetaState) : Bool :=
  match st.metadataCache with
  | some md => md.Uuid != ""
  | none => true

/-- A call outcome respects the identity invariant: a successful result
carries a metadata record with a non-empty uuid. -/
def outcomeUuidOk (r : CallOutcome) : Bool :=
  match r.result with
  | .ok (md, _) => md.Uuid != ""
  | .error _ => true

/-- A concrete network-topology document: one link with id `l1`, one
interface whose `link` value is `l1`. -/
def c1doc : Json :=
  .obj [("links", .arr [.obj [("ethernet_mac_address", .str "aa"),
                              ("type", .str "phy"), ("id", .str "l1")]]),
        ("networks", .arr [.obj [("network_id", .str "n1"),
                                 ("link", .str "l1"), ("type", .str "ipv4")]])]

/-- The spec's example instance-metadata document, with one extra unknown
field. -/
def exampleDoc : Json :=
  .obj [("uuid", .str "abc-123"), ("name", .str "vm1"),
        ("availability_zone", .str "az1"), ("flavor", .num 7)]

/-- The metadata record `exampleDoc` decodes to. -/
def mdEx : Metadata := ⟨"abc-123", "vm1", "az1"⟩

/-- A concrete config-drive environment: device alias present, mount
succeeds as iso9660, the instance-metadata file opens with `exampleDoc`
as content, the network-topology file fails to open. -/
def cdEnvEx : ConfigDriveEnv :=
  ⟨true, .error .blkidFailed, .ok "/tmp/configdrive042", none, none,
   .ok exampleDoc, .error .openFailed⟩

/-- A concrete metadata-service environment where both fetches fail in
transport. -/
def msEnvEx : MetadataServiceEnv := ⟨.error .httpTransport, .error .httpTransport⟩

/-- A successful `parseMetadata` never returns a record with an empty
uuid: the decode result is gated on `metadata.Uuid == ""`. -/
theorem parseMetadata_ok_uuid (r : Reader) (m : Metadata)
    (h : parseMetadata r = .ok m) : m.Uuid ≠ "" := by
  unfold parseMetadata at h
  split at h
  · exact absurd h (by simp)
  · split at h
    · exact absurd h (by simp)
    · split at h
      · exact absurd h (by simp)
      · rename_i metadata hne
        injection h with h
        subst h
        exact hne

/-- The metadata record of a successful `parseFullMetadata` comes from
`parseMetadata`, so its uuid is non-empty. -/
theorem parseFullMetadata_ok_uuid (a b : Reader) (md : Metadata) (nd : Option Networkdata)
    (h : parseFullMetadata a b = .ok (md, nd)) : md.Uuid ≠ "" := by
  unfold parseFullMetadata at h
  split at h
  · exact absurd h (by simp)
  · rename_i m hm
    split at h
    all_goals
      injection h with h
      rw [show md = m from congrArg Prod.fst h.symm]
      exact parseMetadata_ok_uuid a m hm

/-- All successful exits of the post-mount phase go through
`parseFullMetadata`, so the returned uuid is non-empty. -/
theorem afterMount_ok_uuid (env : ConfigDriveEnv) (mntdir : String) (evs : List Event)
    (md : Metadata) (nd : Option Networkdata)
    (h : (afterMount env mntdir evs).1 = .ok (md, nd)) : md.Uuid ≠ "" := by
  unfold afterMount at h
  split at h
  · exact absurd h (by simp)
  · split at h <;> (dsimp only at h; exact parseFullMetadata_ok_uuid _ _ md nd h)

/-- Successful mount-and-read executions return a non-empty uuid. -/
theorem mountAndRead_ok_uuid (env : ConfigDriveEnv) (dev : String) (evs : List Event)
    (md : Metadata) (nd : Option Networkdata)
    (h : (mountAndRead env dev evs).1 = .ok (md, nd)) : md.Uuid ≠ "" := by
  unfold mountAndRead at h
  split at h
  · exact absurd h (by simp)
  · split at h
    · exact afterMount_ok_uuid _ _ _ md nd h
    · split at h
      · exact afterMount_ok_uuid _ _ _ md nd h
      · exact absurd h (by simp)

/-- A successful config-drive attempt returns a non-empty uuid. -/
theorem configDrive_ok_uuid (env : ConfigDriveEnv) (md : Metadata) (nd : Option Networkdata)
    (h : (getMetadataFromConfigDrive env).1 = .ok (md, nd)) : md.Uuid ≠ "" := by
  unfold getMetadataFromConfigDrive at h
  split at h
  · exact mountAndRead_ok_uuid _ _ _ md nd h
  · split at h
    · exact absurd h (by simp)
    · exact mountAndRead_ok_uuid _ _ _ md nd h

/-- A successful metadata-service attempt returns a non-empty uuid. -/
theorem metadataService_ok_uuid (env : MetadataServiceEnv) (md : Metadata)
    (nd : Option Networkdata)
    (h : getMetadataFromMetadataService env = .ok (md, nd)) : md.Uuid ≠ "" := by
  unfold getMetadataFromMetadataService at h
  split at h
  · exact absurd h (by simp)
  · split at h <;> exact parseFullMetadata_ok_uuid _ _ md nd h

/-- After any `getMetadata` call that returns `.ok v`, the cache holds
exactly `v`: the success was either served from the cache or written to
it before returning. -/
theorem getMetadata_success_state (cd ms : Except GoErr (Metadata × Option Networkdata))
    (st : MetaState) (v : Metadata × Option Networkdata)
    (h : (getMetadata cd ms st).1.result = .ok v) :
    (getMetadata cd ms st).2 = ⟨some v.1, v.2⟩ := by
  obtain ⟨mc, nc⟩ := st
  cases mc with
  | some md =>
    have h' : (md, nc) = v := by simpa [getMetadata] using h
    subst h'
    rfl
  | none =>
    cases cd with
    | ok p =>
      obtain ⟨md, nd⟩ := p
      have h' : (md, nd) = v := by simpa [getMetadata] using h
      subst h'
      rfl
    | error e =>
      cases ms with
      | ok p =>
        obtain ⟨md, nd⟩ := p
        have h' : (md, nd) = v := by simpa [getMetadata] using h
        subst h'
        rfl
      | error e2 => simp [getMetadata] at h

/-- Any sequence of `getMetadata` calls against a populated cache returns
the cached pair every time, invokes neither source, and leaves the cache
untouched. -/
theorem runCalls_cached (md : Metadata) (nd : Option Networkdata)
    (envs : List (Except GoErr (Metadata × Option Networkdata) ×
                  Except GoErr (Metadata × Option Networkdata))) :
    runCalls envs ⟨some md, nd⟩
      = (envs.map (fun _ => ⟨.ok (md, nd), false, false⟩), ⟨some md, nd⟩) := by
  induction envs with
  | nil => rfl
  | cons e rest ih => simp [runCalls, getMetadata, ih]

/-- C2: after one successful `getMetadata` call, every one of the N
following calls — whatever the sources would now produce — returns the
identical cached value of that first success, invokes neither the
config-drive source nor the metadata-service source, and leaves the cache
unchanged, so at most one underlying retrieval happens in total. -/
theorem getMetadata_idempotent (cd ms : Except GoErr (Metadata × Option Networkdata))
    (st : MetaState) (v : Metadata × Option Networkdata)
    (envs : List (Except GoErr (Metadata × Option Networkdata) ×
                  Except GoErr (Metadata × Option Networkdata)))
    (h : (getMetadata cd ms st).1.result = .ok v) :
    runCalls envs (getMetadata cd ms st).2
      = (envs.map (fun _ => ⟨.ok v, false, false⟩), (getMetadata cd ms st).2) := by
  rw [getMetadata_success_state cd ms st v h, runCalls_cached]

/-- Witness for C2 at a concrete first success and two subsequent calls. -/
theorem getMetadata_idempotent_witness :
    runCalls [(.error .blkidFailed, .error .httpTransport),
              (.ok (⟨"other", "", ""⟩, none), .error .httpTransport)]
        (getMetadata (.ok (mdEx, none)) (.error .httpTransport) ⟨none, none⟩).2
      = ([⟨.ok (mdEx, none), false, false⟩, ⟨.ok (mdEx, none), false, false⟩],
         (getMetadata (.ok (mdEx, none)) (.error .httpTransport) ⟨none, none⟩).2) :=
  getMetadata_idempotent _ _ _ _ _ rfl

/-- C3: with an empty cache, a config-drive failure makes `getMetadata`
attempt the metadata-service source, and when that succeeds the call's
overall result is exactly the metadata-service result (which is then
cached). -/
theorem getMetadata_fallback_to_service (e : GoErr) (v : Metadata × Option Networkdata)
    (st : MetaState) (h : st.metadataCache = none) :
    getMetadata (.error e) (.ok v) st = (⟨.ok v, true, true⟩, ⟨some v.1, v.2⟩) := by
  obtain ⟨mc, nc⟩ := st
  simp only [MetaState.metadataCache] at h
  subst h
  rfl

/-- Witness for C3 with a concrete device-not-found failure. -/
theorem getMetadata_fallback_to_service_witness :
    getMetadata (.error .blkidFailed) (.ok (mdEx, none)) ⟨none, none⟩
      = (⟨.ok (mdEx, none), true, true⟩, ⟨some mdEx, none⟩) :=
  getMetadata_fallback_to_service _ _ _ rfl

/-- C4: with an empty cache and both sources failing, `getMetadata`
returns the single terminal error of the fallback attempt and leaves the
cache unchanged (still unpopulated), and a subsequent call invokes both
sources again from scratch. -/
theorem getMetadata_double_failure (e1 e2 e3 e4 : GoErr) (st : MetaState)
    (h : st.metadataCache = none) :
    getMetadata (.error e1) (.error e2) st = (⟨.error e2, true, true⟩, st)
    ∧ (getMetadata (.error e3) (.error e4) st).1.cdInvoked = true
    ∧ (getMetadata (.error e3) (.error e4) st).1.msInvoked = true := by
  obtain ⟨mc, nc⟩ := st
  simp only [MetaState.metadataCache] at h
  subst h
  exact ⟨rfl, rfl, rfl⟩

/-- Witness for C4 at concrete errors. -/
theorem getMetadata_double_failure_witness :
    getMetadata (.error .blkidFailed) (.error .httpTransport) ⟨none, none⟩
      = (⟨.error .httpTransport, true, true⟩, ⟨none, none⟩)
    ∧ (getMetadata (.error .mountFailed) (.error (.httpStatus 404)) ⟨none, none⟩).1.cdInvoked
        = true
    ∧ (getMetadata (.error .mountFailed) (.error (.httpStatus 404)) ⟨none, none⟩).1.msInvoked
        = true :=
  getMetadata_double_failure _ _ _ _ _ rfl

/-- Every exit path of the post-mount phase runs the deferred
`Unmount(mntdir)` and `Remove(mntdir)`. -/
theorem afterMount_cleanup (env : ConfigDriveEnv) (mntdir : String) (evs : List Event) :
    Event.unmount mntdir ∈ (afterMount env mntdir evs).2
    ∧ Event.removeDir mntdir ∈ (afterMount env mntdir evs).2 := by
  unfold afterMount
  rcases env.metadataFile with e | mdJson
  · simp
  · rcases env.networkdataFile with e2 | ndJson <;> simp

/-- When the temporary directory was created and one of the two mount
attempts succeeded, the mount-and-read phase unmounts and removes the
directory on every exit path. -/
theorem mountAndRead_cleanup (env : ConfigDriveEnv) (dev mntdir : String)
    (evs : List Event)
    (htmp : env.tempDir = .ok mntdir)
    (hmount : env.isoMountErr = none ∨ env.vfatMountErr = none) :
    Event.unmount mntdir ∈ (mountAndRead env dev evs).2
    ∧ Event.removeDir mntdir ∈ (mountAndRead env dev evs).2 := by
  unfold mountAndRead
  rw [htmp]
  rcases hiso : env.isoMountErr with _ | e
  · exact afterMount_cleanup env mntdir _
  · rcases hvfat : env.vfatMountErr with _ | e2
    · exact afterMount_cleanup env mntdir _
    · rcases hmount with h | h
      · rw [hiso] at h; exact absurd h (by simp)
      · rw [hvfat] at h; exact absurd h (by simp)

/-- C5: in every execution of `getMetadataFromConfigDrive` in which a
mount succeeds (the locate step produced a device, the temporary
directory was created, and the iso9660 or the vfat attempt succeeded),
the mount point is unmounted and its directory removed before the
function returns — the deferred releases appear in the trace on every
exit path, success, instance-file open failure, or decode failure alike. -/
theorem configDrive_mount_released (env : ConfigDriveEnv) (mntdir : String)
    (htmp : env.tempDir = .ok mntdir)
    (hloc : env.devLabelPathExists = true ∨ ∃ out, env.blkidOutput = .ok out)
    (hmount : env.isoMountErr = none ∨ env.vfatMountErr = none) :
    Event.unmount mntdir ∈ (getMetadataFromConfigDrive env).2
    ∧ Event.removeDir mntdir ∈ (getMetadataFromConfigDrive env).2 := by
  unfold getMetadataFromConfigDrive
  cases hdev : env.devLabelPathExists
  · rcases hloc with h | ⟨out, h⟩
    · rw [hdev] at h; exact absurd h (by simp)
    · rw [if_neg (by simp), h]
      exact mountAndRead_cleanup env _ mntdir _ htmp hmount
  · rw [if_pos rfl]
    exact mountAndRead_cleanup env _ mntdir _ htmp hmount

/-- Witness for C5 at a concrete environment (open of the instance file
fails after a successful mount). -/
theorem configDrive_mount_released_witness :
    Event.unmount "/tmp/configdrive042" ∈ (getMetadataFromConfigDrive cdEnvEx).2
    ∧ Event.removeDir "/tmp/configdrive042" ∈ (getMetadataFromConfigDrive cdEnvEx).2 :=
  configDrive_mount_released cdEnvEx _ rfl (Or.inl rfl) (Or.inl rfl)

/-- C6: when the first fetch of `getMetadataFromMetadataService` returns
status 200 with any body — decodable or not — and the second fetch fails,
the source does not return a successful degraded result: because `get`
defers `resp.Body.Close()` before handing the body to the caller, the
decode reads a closed body and the whole attempt fails with the
read-on-closed-body error. -/
theorem metadataService_second_fetch_failure (body : Json) (e : GoErr) :
    getMetadataFromMetadataService ⟨.ok ⟨200, body⟩, .error e⟩
      = .error .readOnClosedBody :=
  rfl

/-- A readable instance-metadata file whose document decodes with a
non-empty uuid parses successfully. -/
theorem parseMetadata_goodFile (j : Json) (m : Metadata)
    (hdec : decodeMetadataJson j = .ok m) (hu : m.Uuid ≠ "") :
    parseMetadata (.goodFile j) = .ok m := by
  simp [parseMetadata, readJson, hdec, hu]

/-- In the post-mount phase, a good instance-metadata file together with a
failing network-topology open yields success with topology absent. -/
theorem afterMount_optional_nd (env : ConfigDriveEnv) (mntdir : String) (evs : List Event)
    (j : Json) (m : Metadata) (e : GoErr)
    (hmd : env.metadataFile = .ok j)
    (hdec : decodeMetadataJson j = .ok m)
    (hu : m.Uuid ≠ "")
    (hnd : env.networkdataFile = .error e) :
    (afterMount env mntdir evs).1 = .ok (m, none) := by
  unfold afterMount
  rw [hmd, hnd]
  dsimp only
  unfold parseFullMetadata
  rw [parseMetadata_goodFile j m hdec hu]
  rfl

/-- The previous fact lifted over the mount phase. -/
theorem mountAndRead_optional_nd (env : ConfigDriveEnv) (dev mntdir : String)
    (evs : List Event) (j : Json) (m : Metadata) (e : GoErr)
    (htmp : env.tempDir = .ok mntdir)
    (hmount : env.isoMountErr = none ∨ env.vfatMountErr = none)
    (hmd : env.metadataFile = .ok j)
    (hdec : decodeMetadataJson j = .ok m)
    (hu : m.Uuid ≠ "")
    (hnd : env.networkdataFile = .error e) :
    (mountAndRead env dev evs).1 = .ok (m, none) := by
  unfold mountAndRead
  rw [htmp]
  rcases hiso : env.isoMountErr with _ | e1
  · exact afterMount_optional_nd env mntdir _ j m e hmd hdec hu hnd
  · rcases hvfat : env.vfatMountErr with _ | e2
    · exact afterMount_optional_nd env mntdir _ j m e hmd hdec hu hnd
    · rcases hmount with h | h
      · rw [hiso] at h; exact absurd h (by simp)
      · rw [hvfat] at h; exact absurd h (by simp)

/-- C7: in every config-drive execution where the mount succeeds, the
instance-metadata file opens and decodes to a record with a non-empty
uuid, and the network-topology file fails to open, the source returns
success with the instance metadata populated and the topology absent. -/
theorem configDrive_optional_networkdata (env : ConfigDriveEnv) (mntdir : String)
    (j : Json) (m : Metadata) (e : GoErr)
    (hloc : env.devLabelPathExists = true ∨ ∃ out, env.blkidOutput = .ok out)
    (htmp : env.tempDir = .ok mntdir)
    (hmount : env.isoMountErr = none ∨ env.vfatMountErr = none)
    (hmd : env.metadataFile = .ok j)
    (hdec : decodeMetadataJson j = .ok m)
    (hu : m.Uuid ≠ "")
    (hnd : env.networkdataFile = .error e) :
    (getMetadataFromConfigDrive env).1 = .ok (m, none) := by
  unfold getMetadataFromConfigDrive
  cases hdev : env.devLabelPathExists
  · rcases hloc with h | ⟨out, h⟩
    · rw [hdev] at h; exact absurd h (by simp)
    · rw [if_neg (by simp), h]
      exact mountAndRead_optional_nd env _ mntdir _ j m e htmp hmount hmd hdec hu hnd
  · rw [if_pos rfl]
    exact mountAndRead_optional_nd env _ mntdir _ j m e htmp hmount hmd hdec hu hnd

/-- Witness for C7 at a concrete environment. -/
theorem configDrive_optional_networkdata_witness :
    (getMetadataFromConfigDrive cdEnvEx).1 = .ok (mdEx, none) :=
  configDrive_optional_networkdata cdEnvEx "/tmp/configdrive042" exampleDoc mdEx
    .openFailed (Or.inl rfl) rfl (Or.inl rfl) rfl rfl (by decide) rfl

/-- C1: the cross-referencing loop of `parseNetworkdata` has no effect —
on a document with a link `l1` and an interface whose `link` value is
`l1`, the returned interface still has its resolved link absent, whereas
the join the spec describes (`joinByLinkId`) attaches the matching link.
The loop writes `network.Link` on the per-iteration copy of the slice
element, which Go discards. -/
theorem parseNetworkdata_join_lost :
    parseNetworkdata (.goodFile c1doc)
      = .ok ⟨[⟨"aa", "phy", "l1"⟩], [⟨"n1", "", "l1", none, "ipv4"⟩], []⟩
    ∧ joinByLinkId [⟨"aa", "phy", "l1"⟩] [⟨"n1", "", "l1", none, "ipv4"⟩]
      = [⟨"n1", "", "l1", some ⟨"aa", "phy", "l1"⟩, "ipv4"⟩] :=
  ⟨rfl, rfl⟩

/-- C8: every instance-metadata document that binds `uuid`, `name` and
`availability_zone` each exactly once to a string, with `uuid` non-empty,
decodes successfully and round-trips the three tracked fields exactly;
all other fields of the document are ignored. -/
theorem parseMetadata_roundtrip (fields : List (String × Json)) (u n az : String)
    (hu : keyValues "uuid" fields = [.str u])
    (hn : keyValues "name" fields = [.str n])
    (haz : keyValues "availability_zone" fields = [.str az])
    (hne : u ≠ "") :
    parseMetadata (.goodFile (.obj fields)) = .ok ⟨u, n, az⟩ := by
  simp [parseMetadata, readJson, decodeMetadataJson, stringFieldBad, decodeStringField,
        hu, hn, haz, goStringError, goStringUpdates, hne]

/-- Witness for C8 at the spec's example document, with an extra unknown
field that is ignored. -/
theorem parseMetadata_roundtrip_witness :
    parseMetadata (.goodFile exampleDoc) = .ok ⟨"abc-123", "vm1", "az1"⟩ :=
  parseMetadata_roundtrip _ _ _ _ rfl rfl rfl (by decide)

/-- C9: every document that decodes but yields an empty (or absent, hence
zero-valued) `uuid` makes `parseMetadata` fail with `ErrBadMetadata`
regardless of the other fields, returning no record. -/
theorem parseMetadata_missing_identity (j : Json) (m : Metadata)
    (hd : decodeMetadataJson j = .ok m) (hu : m.Uuid = "") :
    parseMetadata (.goodFile j) = .error .badMetadata := by
  simp [parseMetadata, readJson, hd, hu]

/-- Witness for C9 at the spec's example document lacking `uuid`. -/
theorem parseMetadata_missing_identity_witness :
    parseMetadata (.goodFile (.obj [("name", .str "vm1")])) = .error .badMetadata :=
  parseMetadata_missing_identity _ ⟨"", "vm1", ""⟩ rfl rfl

/-- C10: whenever the full system's `getMetadata` returns without error —
from a fresh retrieval or from the cache — the returned record's uuid is
non-empty, and the cache invariant (a populated cache holds a record with
a non-empty uuid, true at process start where the cache is nil) is
preserved by the call. -/
theorem getMetadata_uuid_invariant (cdEnv : ConfigDriveEnv) (msEnv : MetadataServiceEnv)
    (st : MetaState) (hinv : cacheUuidInv st = true) :
    outcomeUuidOk (getMetadataFull cdEnv msEnv st).1 = true
    ∧ cacheUuidInv (getMetadataFull cdEnv msEnv st).2 = true := by
  obtain ⟨mc, nc⟩ := st
  unfold getMetadataFull getMetadata
  cases mc with
  | some md =>
    simp [cacheUuidInv] at hinv
    simp [outcomeUuidOk, cacheUuidInv, hinv]
  | none =>
    cases hcd : (getMetadataFromConfigDrive cdEnv).1 with
    | ok v =>
      obtain ⟨md, nd⟩ := v
      have hu := configDrive_ok_uuid cdEnv md nd hcd
      simp [outcomeUuidOk, cacheUuidInv, hu]
    | error e =>
      cases hms : getMetadataFromMetadataService msEnv with
      | ok v =>
        obtain ⟨md, nd⟩ := v
        have hu := metadataService_ok_uuid msEnv md nd hms
        simp [outcomeUuidOk, cacheUuidInv, hu]
      | error e2 =>
        simp [outcomeUuidOk, cacheUuidInv]

/-- Witness for C10 at a concrete environment, from the empty cache of
process start. -/
theorem getMetadata_uuid_invariant_witness :
    outcomeUuidOk (getMetadataFull cdEnvEx msEnvEx ⟨none, none⟩).1 = true
    ∧ cacheUuidInv (getMetadataFull cdEnvEx msEnvEx ⟨none, none⟩).2 = true :=
  getMetadata_uuid_invariant cdEnvEx msEnvEx ⟨none, none⟩ rfl

end Openstack
